import Mathlib

/-!
Shallow embedding of the `a2a-py-github-agent` repository: the GitHub
query toolset (`github_toolset.py`), the part-format bridge and the
task-execution event loop (`adk_agent_executor.py`), and the agent
factory (`adk_agent.py`).

Modelling conventions:
* Python `datetime` values are integers counting seconds since the Unix
  epoch; `timedelta(days=d)` is `d * 86400` seconds.  `isoformat` and
  the `%Y-%m-%d` format are implemented over that representation via the
  standard civil-from-days conversion.
* Python dictionaries produced by the tools are association lists from
  string keys to `Val` values, in insertion order.
* The PyGithub client is a record of oracles, one per API call the code
  performs; a raised exception is an `Except.error` carrying `str(e)`.
  The environment supplies a client for each authentication mode via a
  function `mk : Auth → Github`.
* All tool functions are total Lean functions: the `try/except` blocks
  of the source are the `match` on the oracle's `Except` result.
-/

namespace A2AGithub

instance {ε α : Type} [DecidableEq ε] [DecidableEq α] : DecidableEq (Except ε α) :=
  fun x y =>
    match x, y with
    | .error a, .error b =>
      if h : a = b then .isTrue (by rw [h]) else .isFalse (by intro hh; cases hh; exact h rfl)
    | .error _, .ok _ => .isFalse (by intro hh; cases hh)
    | .ok _, .error _ => .isFalse (by intro hh; cases hh)
    | .ok a, .ok b =>
      if h : a = b then .isTrue (by rw [h]) else .isFalse (by intro hh; cases hh; exact h rfl)

/-- Python dict values appearing in tool results. -/
inductive Val where
  | str (s : String)
  | int (n : Int)
  | none
deriving DecidableEq

/-- A Python dict, as an association list in insertion order. -/
abbrev Dict := List (String × Val)

/-- Lookup of a key in a dict (first binding wins). -/
def dictLookup (k : String) (d : Dict) : Option Val :=
  (d.find? (fun kv => kv.1 == k)).map (fun kv => kv.2)

/-- Python datetimes, as seconds since the Unix epoch. -/
abbrev DT := Int

def secondsPerDay : Int := 86400

/-- Civil date `(year, month, day)` from a count of days since 1970-01-01
(proleptic Gregorian calendar). -/
def civilFromDays (z0 : Int) : Int × Int × Int :=
  let z := z0 + 719468
  let era := z.fdiv 146097
  let doe := z - era * 146097
  let yoe := (doe - doe.fdiv 1460 + doe.fdiv 36524 - doe.fdiv 146096).fdiv 365
  let y := yoe + era * 400
  let doy := doe - (365 * yoe + yoe.fdiv 4 - yoe.fdiv 100)
  let mp := (5 * doy + 2).fdiv 153
  let d := doy - (153 * mp + 2).fdiv 5 + 1
  let m := mp + (if mp < 10 then 3 else -9)
  (if m ≤ 2 then y + 1 else y, m, d)

/-- Zero-pad the decimal form of `n` to width `w`. -/
def padNat (w : Nat) (n : Nat) : String :=
  let s := toString n
  if w ≤ s.length then s else String.mk (List.replicate (w - s.length) '0') ++ s

/-- `datetime.isoformat()` for whole-second datetimes. -/
def isoformat (t : DT) : String :=
  let days := t.fdiv secondsPerDay
  let sod := (t - days * secondsPerDay).toNat
  let ymd := civilFromDays days
  padNat 4 ymd.1.toNat ++ "-" ++ padNat 2 ymd.2.1.toNat ++ "-" ++ padNat 2 ymd.2.2.toNat
    ++ "T" ++ padNat 2 (sod / 3600) ++ ":" ++ padNat 2 (sod % 3600 / 60)
    ++ ":" ++ padNat 2 (sod % 60)

/-- The `%Y-%m-%d` strftime format. -/
def formatYMD (t : DT) : String :=
  let ymd := civilFromDays (t.fdiv secondsPerDay)
  padNat 4 ymd.1.toNat ++ "-" ++ padNat 2 ymd.2.1.toNat ++ "-" ++ padNat 2 ymd.2.2.toNat

/-- Python truthiness of an optional string (`None` and `""` are falsy). -/
def strTruthy : Option String → Bool
  | some s => !(s == "")
  | Option.none => false

/-- Authentication state of the constructed PyGithub client. -/
inductive Auth where
  | token (t : String)
  | anonymous
deriving DecidableEq

/-- `_get_github_client`: explicit `access_token` if truthy, else the
`GITHUB_TOKEN` environment variable if truthy, else anonymous access. -/
def get_github_client (accessToken envToken : Option String) : Auth :=
  if strTruthy accessToken then Auth.token (accessToken.getD "")
  else if strTruthy envToken then Auth.token (envToken.getD "")
  else Auth.anonymous

/-- A repository object as consumed by the toolset. -/
structure Repo where
  name : String
  full_name : String
  description : Option String
  html_url : String
  updated_at : DT
  pushed_at : Option DT
  language : Option String
  stargazers_count : Int
  forks_count : Int
deriving DecidableEq

/-- A commit object as consumed by the toolset (`commit.commit.author`
flattened into name and date). -/
structure Commit where
  sha : String
  message : String
  author_name : String
  author_date : DT
  html_url : String
deriving DecidableEq

/-- Oracle for the PyGithub calls the toolset performs.  `getRepos u s d`
models `github.get_user(u?).get_repos(sort=s, direction=d)` (a `none`
user is the authenticated caller); `getCommits r c` models
`github.get_repo(r).get_commits(since=c)`; `searchRepos q s o` models
`github.search_repositories(query=q, sort=s, order=o)`.  An
`Except.error` is a raised exception, carrying `str(e)`. -/
structure Github where
  getRepos : Option String → String → String → Except String (List Repo)
  getCommits : String → DT → Except String (List Commit)
  searchRepos : String → String → String → Except String (List Repo)

def optStrVal : Option String → Val
  | some s => Val.str s
  | Option.none => Val.none

/-- The repository dict built inside the loops of `_get_user_repositories`
and `_search_repositories`. -/
def mkRepoDict (r : Repo) : Dict :=
  [("name", Val.str r.name),
   ("full_name", Val.str r.full_name),
   ("description", optStrVal r.description),
   ("url", Val.str r.html_url),
   ("updated_at", Val.str (isoformat r.updated_at)),
   ("pushed_at", match r.pushed_at with
     | some t => Val.str (isoformat t)
     | Option.none => Val.none),
   ("language", optStrVal r.language),
   ("stars", Val.int r.stargazers_count),
   ("forks", Val.int r.forks_count)]

/-- First line of a string: `s.split('\n')[0]`. -/
def firstLine (s : String) : String :=
  match s.splitOn "\n" with
  | [] => ""
  | l :: _ => l

/-- The commit dict built inside the loop of `_get_recent_commits`. -/
def mkCommitDict (c : Commit) : Dict :=
  [("sha", Val.str (c.sha.take 8)),
   ("message", Val.str (firstLine c.message)),
   ("author", Val.str c.author_name),
   ("date", Val.str (isoformat c.author_date)),
   ("url", Val.str c.html_url)]

/-- The single-element error list `[{'error': msg}]` returned by every
`except` branch of the toolset. -/
def errorItem (msg : String) : List Dict :=
  [[("error", Val.str msg)]]

/-- The `if username:` truthiness test selecting between
`get_user(username)` and `get_user()`. -/
def userArg (username : Option String) : Option String :=
  if strTruthy username then username else Option.none

/-- The accumulation loop of `_get_user_repositories`: break once
`len(repos) >= limit`, append the record when `updated_at >= cutoff`. -/
def reposLoop (limit : Int) (cutoff : DT) : List Dict → List Repo → List Dict
  | acc, [] => acc
  | acc, r :: rest =>
    if limit ≤ (acc.length : Int) then acc
    else if cutoff ≤ r.updated_at then
      reposLoop limit cutoff (acc ++ [mkRepoDict r]) rest
    else reposLoop limit cutoff acc rest

/-- `_get_user_repositories(username?, days, limit)` with the ambient
state made explicit: `mk` builds a client per authentication mode,
`envToken` is `GITHUB_TOKEN`, `now` is `datetime.now()`, and
`accessToken` is `kwargs.get('access_token')`. -/
def get_user_repositories (mk : Auth → Github) (envToken : Option String)
    (username : Option String) (days limit : Int) (now : DT)
    (accessToken : Option String) : List Dict :=
  let github := mk (get_github_client accessToken envToken)
  let cutoff := now - days * secondsPerDay
  match github.getRepos (userArg username) "updated" "desc" with
  | .error e => errorItem ("Failed to get repositories: " ++ e)
  | .ok repos => reposLoop limit cutoff [] repos

/-- The accumulation loop of `_get_recent_commits`: break once
`len(commits) >= limit`, append every commit record. -/
def commitsLoop (limit : Int) : List Dict → List Commit → List Dict
  | acc, [] => acc
  | acc, c :: rest =>
    if limit ≤ (acc.length : Int) then acc
    else commitsLoop limit (acc ++ [mkCommitDict c]) rest

/-- `_get_recent_commits(repo_name, days, limit)` with the ambient state
made explicit. -/
def get_recent_commits (mk : Auth → Github) (envToken : Option String)
    (repo_name : String) (days limit : Int) (now : DT)
    (accessToken : Option String) : List Dict :=
  let github := mk (get_github_client accessToken envToken)
  let cutoff := now - days * secondsPerDay
  match github.getCommits repo_name cutoff with
  | .error e => errorItem ("Failed to get commits: " ++ e)
  | .ok commits => commitsLoop limit [] commits

/-- Python list slicing `xs[:k]`, including the negative-index case. -/
def pySliceTo (k : Int) (xs : List α) : List α :=
  if 0 ≤ k then xs.take k.toNat else xs.take ((xs.length : Int) + k).toNat

/-- `_search_repositories(query, sort, limit)` with the ambient state
made explicit.  The issued query string appends the
`pushed:>=<now - 30 days>` clause to the caller's query text. -/
def search_repositories (mk : Auth → Github) (envToken : Option String)
    (query sort : String) (limit : Int) (now : DT)
    (accessToken : Option String) : List Dict :=
  let github := mk (get_github_client accessToken envToken)
  let search_query := query ++ " pushed:>=" ++ formatYMD (now - 30 * secondsPerDay)
  match github.searchRepos search_query sort "desc" with
  | .error e => errorItem ("Failed to search repositories: " ++ e)
  | .ok results => (pySliceTo limit results).map mkRepoDict

/-! ### Part-format bridge (`adk_agent_executor.py`) -/

/-- `google.genai.types.FileData`. -/
structure FileData where
  file_uri : String
  mime_type : Option String
deriving DecidableEq

/-- `google.genai.types.Blob`; `data` holds the byte payload. -/
structure Blob where
  blob_data : String
  mime_type : Option String
deriving DecidableEq

/-- `google.genai.types.Part`: the three content fields the bridge reads. -/
structure GenaiPart where
  text : Option String
  file_data : Option FileData
  inline_data : Option Blob
deriving DecidableEq

/-- The `file` payload of an A2A `FilePart`: `FileWithUri` or `FileWithBytes`. -/
inductive A2AFile where
  | withUri (uri : String) (mime_type : Option String)
  | withBytes (bytes : String) (mime_type : Option String)
deriving DecidableEq

/-- An A2A protocol part, identified with the `root` union of `a2a.types.Part`
(`TextPart` or `FilePart`). -/
inductive A2APart where
  | textPart (text : String)
  | filePart (file : A2AFile)
deriving DecidableEq

/-- `convert_a2a_part_to_genai`.  Both union variants are covered, so the
`raise ValueError` branches of the source are unreachable on well-typed
input and the function is total. -/
def convert_a2a_part_to_genai : A2APart → GenaiPart
  | .textPart t => ⟨some t, Option.none, Option.none⟩
  | .filePart (.withUri u m) => ⟨Option.none, some ⟨u, m⟩, Option.none⟩
  | .filePart (.withBytes b m) => ⟨Option.none, Option.none, some ⟨b, m⟩⟩

/-- `convert_a2a_parts_to_genai`. -/
def convert_a2a_parts_to_genai (ps : List A2APart) : List GenaiPart :=
  ps.map convert_a2a_part_to_genai

/-- The truthiness filter `part.text or part.file_data or part.inline_data`
(a `None` or empty `text` is falsy; a present object field is truthy). -/
def genaiPartNonEmpty (p : GenaiPart) : Bool :=
  strTruthy p.text || p.file_data.isSome || p.inline_data.isSome

/-- The non-text branches of `convert_genai_part_to_a2a`. -/
def convertNonText (p : GenaiPart) : Except String A2APart :=
  match p.file_data with
  | some fd => .ok (.filePart (.withUri fd.file_uri fd.mime_type))
  | Option.none =>
    match p.inline_data with
    | some b => .ok (.filePart (.withBytes b.blob_data b.mime_type))
    | Option.none => .error "Unsupported part type"

/-- `convert_genai_part_to_a2a`: `if part.text:` (truthiness), then
`file_data`, then `inline_data`, else `raise ValueError`. -/
def convert_genai_part_to_a2a (p : GenaiPart) : Except String A2APart :=
  match p.text with
  | some t => if t = "" then convertNonText p else .ok (.textPart t)
  | Option.none => convertNonText p

/-- Left-to-right effectful map: the list comprehension of the source,
where the first raised conversion error propagates. -/
def exceptMap (f : α → Except String β) : List α → Except String (List β)
  | [] => .ok []
  | x :: xs =>
    match f x with
    | .error e => .error e
    | .ok y =>
      match exceptMap f xs with
      | .error e => .error e
      | .ok ys => .ok (y :: ys)

/-- `convert_genai_parts_to_a2a`: filter by truthiness, convert each kept
part. -/
def convert_genai_parts_to_a2a (ps : List GenaiPart) : Except String (List A2APart) :=
  exceptMap convert_genai_part_to_a2a (ps.filter genaiPartNonEmpty)

/-! ### Task execution bridge: the event-consumption loop -/

/-- One event from `runner.run_async`, with the three observations
`_process_request` makes of it. -/
structure AgentEvent where
  is_final_response : Bool
  function_calls : List String
  parts : List GenaiPart
deriving DecidableEq

/-- Task-updater calls emitted while consuming events. -/
inductive A2AAction where
  | addArtifact (parts : List A2APart)
  | complete
  | updateWorking (parts : List A2APart)
deriving DecidableEq

/-- The `async for` loop of `_process_request` over the run's events:
on a final response, publish the converted parts as an artifact, complete
the task and `break`; on a non-final event with no function calls,
publish a working-status update; otherwise skip the event.  A conversion
error propagates out (Python `raise`). -/
def process_request_events : List AgentEvent → Except String (List A2AAction)
  | [] => .ok []
  | e :: rest =>
    if e.is_final_response then
      match convert_genai_parts_to_a2a e.parts with
      | .error err => .error err
      | .ok parts => .ok [.addArtifact parts, .complete]
    else if e.function_calls.isEmpty then
      match convert_genai_parts_to_a2a e.parts with
      | .error err => .error err
      | .ok parts =>
        match process_request_events rest with
        | .error err => .error err
        | .ok acts => .ok (.updateWorking parts :: acts)
    else
      process_request_events rest

/-! ### Agent factory (`adk_agent.py`) -/

/-- The state `GitHubToolset.__init__` stores from its two required
positional parameters. -/
structure GitHubToolsetState where
  client_id : String
  client_secret : String
deriving DecidableEq

/-- The positional parameters of `GitHubToolset.__init__`, none of which
has a default. -/
def gitHubToolsetInitParams : List String := ["client_id", "client_secret"]

/-- Calling `GitHubToolset(*args)`: Python binds positional arguments to
the two required parameters and raises `TypeError` on any other arity. -/
def gitHubToolsetInit (args : List String) : Except String GitHubToolsetState :=
  match args with
  | [cid, cs] => .ok ⟨cid, cs⟩
  | _ =>
    .error ("TypeError: GitHubToolset.__init__ takes "
      ++ toString gitHubToolsetInitParams.length
      ++ " required positional arguments but "
      ++ toString args.length ++ " were given")

/-- The agent value `create_agent` would build after constructing the
toolset. -/
structure LlmAgentModel where
  agent_name : String
  tools : List GitHubToolsetState
deriving DecidableEq

/-- `create_agent()`: constructs the toolset with NO arguments
(`GitHubToolset()`), then builds the `LlmAgent` with it. -/
def create_agent : Except String LlmAgentModel :=
  match gitHubToolsetInit [] with
  | .error e => .error e
  | .ok toolset => .ok { agent_name := "github_agent", tools := [toolset] }

/-! ### Loop characterizations -/

theorem reposLoop_spec (limit : Int) (cutoff : DT) (rs : List Repo) :
    ∀ acc : List Dict, ∃ sel : List Repo,
      sel.Sublist rs ∧ (∀ r ∈ sel, cutoff ≤ r.updated_at) ∧
      reposLoop limit cutoff acc rs = acc ++ sel.map mkRepoDict := by
  induction rs with
  | nil =>
    intro acc
    exact ⟨[], List.Sublist.refl _, by simp, by simp [reposLoop]⟩
  | cons r rest ih =>
    intro acc
    by_cases hb : limit ≤ (acc.length : Int)
    · exact ⟨[], List.nil_sublist _, by simp, by simp [reposLoop, hb]⟩
    · by_cases hc : cutoff ≤ r.updated_at
      · obtain ⟨sel, hsub, hsel, heq⟩ := ih (acc ++ [mkRepoDict r])
        refine ⟨r :: sel, List.Sublist.cons₂ r hsub, ?_, ?_⟩
        · intro x hx
          rcases List.mem_cons.mp hx with rfl | hx
          · exact hc
          · exact hsel x hx
        · simp [reposLoop, hb, hc, heq]
      · obtain ⟨sel, hsub, hsel, heq⟩ := ih acc
        exact ⟨sel, List.Sublist.cons r hsub, hsel, by simp [reposLoop, hb, hc, heq]⟩

theorem reposLoop_length (limit : Int) (cutoff : DT) (rs : List Repo) :
    ∀ acc : List Dict, (reposLoop limit cutoff acc rs).length ≤ max acc.length limit.toNat := by
  induction rs with
  | nil =>
    intro acc
    simp [reposLoop]
  | cons r rest ih =>
    intro acc
    by_cases hb : limit ≤ (acc.length : Int)
    · simp [reposLoop, hb]
    · by_cases hc : cutoff ≤ r.updated_at
      · have h1 := ih (acc ++ [mkRepoDict r])
        have hlt : acc.length < limit.toNat := by omega
        have h4 : (reposLoop limit cutoff (acc ++ [mkRepoDict r]) rest).length ≤ limit.toNat := by
          refine le_trans h1 ?_
          simp only [List.length_append, List.length_cons, List.length_nil]
          exact max_le (by omega) le_rfl
        simp only [reposLoop, if_neg hb, if_pos hc]
        exact le_trans h4 (le_max_right _ _)
      · simp only [reposLoop, if_neg hb, if_neg hc]
        exact ih acc

theorem commitsLoop_spec (limit : Int) (cs : List Commit) :
    ∀ acc : List Dict, ∃ sel : List Commit,
      sel.Sublist cs ∧ commitsLoop limit acc cs = acc ++ sel.map mkCommitDict := by
  induction cs with
  | nil =>
    intro acc
    exact ⟨[], List.Sublist.refl _, by simp [commitsLoop]⟩
  | cons c rest ih =>
    intro acc
    by_cases hb : limit ≤ (acc.length : Int)
    · exact ⟨[], List.nil_sublist _, by simp [commitsLoop, hb]⟩
    · obtain ⟨sel, hsub, heq⟩ := ih (acc ++ [mkCommitDict c])
      exact ⟨c :: sel, List.Sublist.cons₂ c hsub, by simp [commitsLoop, hb, heq]⟩

/-! ### Shared concrete inputs for witnesses and counterexamples -/

/-- A client whose every call raises with message `"boom"`. -/
def mkBoom : Auth → Github := fun _ =>
  { getRepos := fun _ _ _ => .error "boom"
    getCommits := fun _ _ => .error "boom"
    searchRepos := fun _ _ _ => .error "boom" }

def repoA : Repo :=
  { name := "alpha", full_name := "u/alpha", description := Option.none
    html_url := "https://example.com/u/alpha"
    updated_at := 20373 * secondsPerDay, pushed_at := Option.none
    language := some "Python", stargazers_count := 5, forks_count := 1 }

def repoB : Repo :=
  { name := "beta", full_name := "u/beta", description := some "d"
    html_url := "https://example.com/u/beta"
    updated_at := 20370 * secondsPerDay, pushed_at := some (20370 * secondsPerDay)
    language := Option.none, stargazers_count := 2, forks_count := 0 }

/-- A client that lists the two sample repositories (already in descending
update order, as requested from the API). -/
def mkTwoRepos : Auth → Github := fun _ =>
  { getRepos := fun _ _ _ => .ok [repoA, repoB]
    getCommits := fun _ _ => .error "n/a"
    searchRepos := fun _ _ _ => .ok [repoA, repoB] }

/-- A client whose anonymous mode fails with a 401, as the live API does
for `get_user()` without credentials. -/
def mkAnon401 : Auth → Github := fun a =>
  { getRepos := fun _ _ _ =>
      match a with
      | .anonymous => .error "401 Bad credentials"
      | .token _ => .ok [repoA]
    getCommits := fun _ _ => .error "401 Bad credentials"
    searchRepos := fun _ _ _ => .error "401 Bad credentials" }

/-! ### C1: result shape of the three operations -/

/-- Either the one-element `[{'error': <pfx><cause>}]` failure result, or a
list of data records none of which carries an `'error'` key. -/
def toolShape (result : List Dict) (pfx : String) : Prop :=
  (∃ e, result = errorItem (pfx ++ e)) ∨ ∀ d ∈ result, dictLookup "error" d = Option.none

theorem dictLookup_error_mkRepoDict (r : Repo) :
    dictLookup "error" (mkRepoDict r) = Option.none := rfl

theorem dictLookup_error_mkCommitDict (c : Commit) :
    dictLookup "error" (mkCommitDict c) = Option.none := rfl

/-- C1, counterexample: on an underlying failure, `get_user_repositories`
returns `[{'error': "Failed to get repositories: boom"}]` — a record with
no `status` field and no `error_message` field, so the claimed
`{status: "error", error_message: ...}` envelope is not what the code
produces. -/
theorem c1_no_status_envelope_cex :
    get_user_repositories mkBoom Option.none Option.none 30 10 0 Option.none
      = [[("error", Val.str "Failed to get repositories: boom")]] ∧
    dictLookup "status" [("error", Val.str "Failed to get repositories: boom")] = Option.none ∧
    dictLookup "error_message" [("error", Val.str "Failed to get repositories: boom")] = Option.none :=
  ⟨rfl, rfl, rfl⟩

/-- C1 (amended): every Query Tool operation returns a bare list of dicts:
on success a list of record dicts carrying no `'error'` key, and on any
underlying failure the one-element list `[{'error': "<prefix><cause>"}]`,
with prefix `"Failed to get repositories: "` for `get_user_repositories`,
`"Failed to get commits: "` for `get_recent_commits`, and
`"Failed to search repositories: "` for `search_repositories`; no
`{status, data, count, message, error_message}` envelope is produced. -/
theorem c1_tool_results_shape (mk : Auth → Github)
    (envToken accessToken username : Option String) (repoName query sort : String)
    (daysR limitR daysC limitC limitS : Int) (now : DT) :
    toolShape (get_user_repositories mk envToken username daysR limitR now accessToken)
      "Failed to get repositories: " ∧
    toolShape (get_recent_commits mk envToken repoName daysC limitC now accessToken)
      "Failed to get commits: " ∧
    toolShape (search_repositories mk envToken query sort limitS now accessToken)
      "Failed to search repositories: " := by
  refine ⟨?_, ?_, ?_⟩
  · unfold toolShape
    simp only [get_user_repositories]
    cases hres : (mk (get_github_client accessToken envToken)).getRepos
        (userArg username) "updated" "desc" with
    | error e => exact Or.inl ⟨e, rfl⟩
    | ok repos =>
      refine Or.inr ?_
      obtain ⟨sel, _, _, heq⟩ := reposLoop_spec limitR (now - daysR * secondsPerDay) repos []
      simp only [heq, List.nil_append]
      intro d hd
      obtain ⟨r, _, rfl⟩ := List.mem_map.mp hd
      exact dictLookup_error_mkRepoDict r
  · unfold toolShape
    simp only [get_recent_commits]
    cases hres : (mk (get_github_client accessToken envToken)).getCommits
        repoName (now - daysC * secondsPerDay) with
    | error e => exact Or.inl ⟨e, rfl⟩
    | ok cs =>
      refine Or.inr ?_
      obtain ⟨sel, _, heq⟩ := commitsLoop_spec limitC cs []
      simp only [heq, List.nil_append]
      intro d hd
      obtain ⟨c, _, rfl⟩ := List.mem_map.mp hd
      exact dictLookup_error_mkCommitDict c
  · unfold toolShape
    simp only [search_repositories]
    cases hres : (mk (get_github_client accessToken envToken)).searchRepos
        (query ++ " pushed:>=" ++ formatYMD (now - 30 * secondsPerDay)) sort "desc" with
    | error e => exact Or.inl ⟨e, rfl⟩
    | ok results =>
      refine Or.inr ?_
      intro d hd
      obtain ⟨r, _, rfl⟩ := List.mem_map.mp hd
      exact dictLookup_error_mkRepoDict r

/-! ### C2: failures are folded into the error result, never raised -/

/-- C2: the three tool operations are total functions (no exception can
cross the tool boundary: every oracle outcome is matched), and whenever
the underlying client call raises — for `get_recent_commits`, whatever
the shape of `repo_name` — the returned value is the one-element error
list whose message is the operation's prefix followed by the cause; in
particular `get_recent_commits`'s error message starts with
`"Failed to get commits: "`. -/
theorem c2_failures_folded (mk : Auth → Github)
    (envToken accessToken username : Option String) (repoName query sort : String)
    (daysR limitR daysC limitC limitS : Int) (now : DT) (e : String) :
    ((mk (get_github_client accessToken envToken)).getRepos
        (userArg username) "updated" "desc" = .error e →
      get_user_repositories mk envToken username daysR limitR now accessToken
        = errorItem ("Failed to get repositories: " ++ e)) ∧
    ((mk (get_github_client accessToken envToken)).getCommits
        repoName (now - daysC * secondsPerDay) = .error e →
      get_recent_commits mk envToken repoName daysC limitC now accessToken
        = errorItem ("Failed to get commits: " ++ e)) ∧
    ((mk (get_github_client accessToken envToken)).searchRepos
        (query ++ " pushed:>=" ++ formatYMD (now - 30 * secondsPerDay)) sort "desc" = .error e →
      search_repositories mk envToken query sort limitS now accessToken
        = errorItem ("Failed to search repositories: " ++ e)) := by
  refine ⟨fun h => ?_, fun h => ?_, fun h => ?_⟩
  · simp [get_user_repositories, h]
  · simp [get_recent_commits, h]
  · simp [search_repositories, h]

/-- Witness for C2 at a malformed repository identifier and a raising
client. -/
theorem c2_failures_folded_witness :
    (mkBoom (get_github_client Option.none Option.none)).getCommits
        "not-a-slash-name" ((0 : Int) - 7 * secondsPerDay) = .error "boom" ∧
    get_recent_commits mkBoom Option.none "not-a-slash-name" 7 10 0 Option.none
      = errorItem ("Failed to get commits: " ++ "boom") :=
  ⟨rfl, (c2_failures_folded mkBoom Option.none Option.none Option.none
      "not-a-slash-name" "q" "updated" 30 10 7 10 10 0 "boom").2.1 rfl⟩

/-! ### C3: filtering, truncation and order of `get_user_repositories` -/

/-- C3, counterexample: at `limit = -1` the loop breaks immediately
(`len(repos) >= limit` holds at once) and zero records are returned,
which is not "at most `limit`" records, so the claim fails for negative
`limit` values. -/
theorem c3_negative_limit_cex :
    ¬ (((get_user_repositories mkTwoRepos Option.none Option.none 30 (-1)
          (20373 * secondsPerDay) Option.none).length : Int) ≤ -1) := by decide

/-- C3 (amended, to nonnegative `limit`): for all `days` and all
`limit ≥ 0`, when the listing the client returns (requested with
`sort='updated', direction='desc'`) is descending in `updated_at`, the
returned records are the images of a selection `sel` of input
repositories that is a sublist of the listing (so order is preserved),
is itself descending in update time, contains only repositories with
`updated_at ≥ now - days`, and has at most `limit` elements. -/
theorem c3_user_repos_filtered_sorted_truncated (mk : Auth → Github)
    (envToken accessToken username : Option String) (days limit : Int) (now : DT)
    (repos : List Repo)
    (hok : (mk (get_github_client accessToken envToken)).getRepos
        (userArg username) "updated" "desc" = .ok repos)
    (hsorted : repos.Pairwise (fun a b => b.updated_at ≤ a.updated_at))
    (hlim : 0 ≤ limit) :
    ∃ sel : List Repo,
      sel.Sublist repos ∧
      sel.Pairwise (fun a b => b.updated_at ≤ a.updated_at) ∧
      (∀ r ∈ sel, now - days * secondsPerDay ≤ r.updated_at) ∧
      ((sel.map mkRepoDict).length : Int) ≤ limit ∧
      get_user_repositories mk envToken username days limit now accessToken
        = sel.map mkRepoDict := by
  obtain ⟨sel, hsub, hsel, heq⟩ := reposLoop_spec limit (now - days * secondsPerDay) repos []
  have hlen := reposLoop_length limit (now - days * secondsPerDay) repos []
  rw [heq] at hlen
  simp only [List.nil_append, List.length_nil, Nat.max_eq_right (Nat.zero_le _)] at hlen heq
  refine ⟨sel, hsub, List.Pairwise.sublist hsub hsorted, hsel, ?_, ?_⟩
  · omega
  · simp only [get_user_repositories, hok]
    exact heq

/-- Witness for the amended C3 on a concrete two-repository listing. -/
theorem c3_user_repos_witness :
    ((mkTwoRepos (get_github_client Option.none Option.none)).getRepos
        (userArg Option.none) "updated" "desc" = .ok [repoA, repoB]) ∧
    ([repoA, repoB].Pairwise (fun a b : Repo => b.updated_at ≤ a.updated_at)) ∧
    ((0 : Int) ≤ 10) ∧
    (∃ sel : List Repo,
      sel.Sublist [repoA, repoB] ∧
      sel.Pairwise (fun a b => b.updated_at ≤ a.updated_at) ∧
      (∀ r ∈ sel, (20373 : Int) * secondsPerDay - 30 * secondsPerDay ≤ r.updated_at) ∧
      ((sel.map mkRepoDict).length : Int) ≤ 10 ∧
      get_user_repositories mkTwoRepos Option.none Option.none 30 10
          (20373 * secondsPerDay) Option.none = sel.map mkRepoDict) :=
  ⟨rfl, by decide, by decide,
    c3_user_repos_filtered_sorted_truncated mkTwoRepos Option.none Option.none
      Option.none 30 10 (20373 * secondsPerDay) [repoA, repoB] rfl (by decide) (by decide)⟩

/-! ### C4: missing-username behavior -/

/-- C4, counterexample: with no explicit username and no token (argument
or environment), the code builds an anonymous client and simply attempts
the listing; when that fails (as the live API does with a 401), the
result is the generic `[{'error': "Failed to get repositories: <cause>"}]`
record — there is no `status` field and the message
`"Username is required when not using authentication token"` is not
produced anywhere. -/
theorem c4_username_message_cex :
    get_user_repositories mkAnon401 Option.none Option.none 30 10 0 Option.none
      = errorItem "Failed to get repositories: 401 Bad credentials" ∧
    dictLookup "error" [("error", Val.str "Failed to get repositories: 401 Bad credentials")]
      ≠ some (Val.str "Username is required when not using authentication token") ∧
    dictLookup "status" [("error", Val.str "Failed to get repositories: 401 Bad credentials")]
      = Option.none := by
  refine ⟨rfl, by decide, rfl⟩

/-- No generic failure message of `get_user_repositories` can equal the
claimed message, since the two differ at their first character. -/
theorem failed_prefix_ne_username_msg (e : String) :
    "Failed to get repositories: " ++ e
      ≠ "Username is required when not using authentication token" := by
  intro h
  have h2 : ("Failed to get repositories: ").data ++ e.data
      = ("Username is required when not using authentication token").data :=
    congrArg String.data h
  have h3 : ('F' :: ("ailed to get repositories: ").data ++ e.data)
      = 'U' :: ("sername is required when not using authentication token").data := h2
  have h4 := List.head_eq_of_cons_eq h3
  exact absurd h4 (by decide)

/-- C4 (amended): when `get_user_repositories` is called with no explicit
username and no authentication token (neither per-call nor environment),
it queries through the anonymous client; the outcome is either a list of
error-free record dicts or the single record
`{'error': "Failed to get repositories: <cause>"}` — whose message is
never `"Username is required when not using authentication token"`. -/
theorem c4_missing_username_generic_error (mk : Auth → Github)
    (days limit : Int) (now : DT) :
    (∃ e, (mk Auth.anonymous).getRepos Option.none "updated" "desc" = .error e ∧
      get_user_repositories mk Option.none Option.none days limit now Option.none
        = errorItem ("Failed to get repositories: " ++ e) ∧
      "Failed to get repositories: " ++ e
        ≠ "Username is required when not using authentication token") ∨
    (∀ d ∈ get_user_repositories mk Option.none Option.none days limit now Option.none,
      dictLookup "error" d = Option.none) := by
  simp only [get_user_repositories]
  have hanon : get_github_client Option.none Option.none = Auth.anonymous := rfl
  rw [hanon]
  cases hres : (mk Auth.anonymous).getRepos (userArg Option.none) "updated" "desc" with
  | error e =>
    refine Or.inl ⟨e, hres, rfl, failed_prefix_ne_username_msg e⟩
  | ok repos =>
    refine Or.inr ?_
    obtain ⟨sel, _, _, heq⟩ := reposLoop_spec limit (now - days * secondsPerDay) repos []
    simp only [heq, List.nil_append]
    intro d hd
    obtain ⟨r, _, rfl⟩ := List.mem_map.mp hd
    exact dictLookup_error_mkRepoDict r

/-- Witness for the amended C4 at the failing anonymous client. -/
theorem c4_missing_username_witness :
    (∃ e, (mkAnon401 Auth.anonymous).getRepos Option.none "updated" "desc" = .error e ∧
      get_user_repositories mkAnon401 Option.none Option.none 30 10 0 Option.none
        = errorItem ("Failed to get repositories: " ++ e) ∧
      "Failed to get repositories: " ++ e
        ≠ "Username is required when not using authentication token") ∨
    (∀ d ∈ get_user_repositories mkAnon401 Option.none Option.none 30 10 0 Option.none,
      dictLookup "error" d = Option.none) :=
  c4_missing_username_generic_error mkAnon401 30 10 0

/-! ### C10: `create_agent` always fails constructing the toolset -/

/-- C10: `GitHubToolset.__init__` requires its two positional parameters
`client_id` and `client_secret` (a two-argument call succeeds), while
`create_agent` constructs the toolset with no arguments, so every call
of `create_agent` fails with a `TypeError` at toolset construction and
never produces an agent. -/
theorem c10_create_agent_always_fails :
    gitHubToolsetInit ["id", "secret"] = .ok ⟨"id", "secret"⟩ ∧
    gitHubToolsetInit [] = .error
      "TypeError: GitHubToolset.__init__ takes 2 required positional arguments but 0 were given" ∧
    create_agent = .error
      "TypeError: GitHubToolset.__init__ takes 2 required positional arguments but 0 were given" :=
  ⟨rfl, rfl, rfl⟩

/-! ### C5 and C6: the part-format bridge -/

/-- The protocol parts the round-trip claim ranges over: text parts with
non-empty text, and file parts. -/
def A2APartWf : A2APart → Prop
  | .textPart t => t ≠ ""
  | .filePart _ => True

theorem roundtrip_single (p : A2APart) (hp : A2APartWf p) :
    genaiPartNonEmpty (convert_a2a_part_to_genai p) = true ∧
    convert_genai_part_to_a2a (convert_a2a_part_to_genai p) = .ok p := by
  cases p with
  | textPart t =>
    have ht : t ≠ "" := hp
    constructor
    · simp [convert_a2a_part_to_genai, genaiPartNonEmpty, strTruthy, ht]
    · simp [convert_a2a_part_to_genai, convert_genai_part_to_a2a, ht]
  | filePart f =>
    cases f with
    | withUri u m => exact ⟨rfl, rfl⟩
    | withBytes b m => exact ⟨rfl, rfl⟩

/-- C5: converting any sequence of protocol parts — non-empty text parts,
file-by-uri parts, file-by-bytes parts — to model parts and back yields
the original sequence, field for field and in order. -/
theorem c5_parts_roundtrip (ps : List A2APart) (h : ∀ p ∈ ps, A2APartWf p) :
    convert_genai_parts_to_a2a (convert_a2a_parts_to_genai ps) = .ok ps := by
  induction ps with
  | nil => rfl
  | cons p rest ih =>
    obtain ⟨h1, h2⟩ := roundtrip_single p (h p (List.mem_cons_self p rest))
    have ihr := ih (fun q hq => h q (List.mem_cons_of_mem p hq))
    show convert_genai_parts_to_a2a
        (convert_a2a_part_to_genai p :: convert_a2a_parts_to_genai rest) = .ok (p :: rest)
    unfold convert_genai_parts_to_a2a at ihr ⊢
    rw [List.filter_cons_of_pos h1]
    simp only [exceptMap, h2, ihr]

/-- Witness for C5 on one part of each shape. -/
theorem c5_parts_roundtrip_witness :
    (∀ p ∈ [A2APart.textPart "hello",
            A2APart.filePart (.withUri "https://example.com/f" (some "text/plain")),
            A2APart.filePart (.withBytes "aGk=" Option.none)], A2APartWf p) ∧
    convert_genai_parts_to_a2a (convert_a2a_parts_to_genai
        [A2APart.textPart "hello",
         A2APart.filePart (.withUri "https://example.com/f" (some "text/plain")),
         A2APart.filePart (.withBytes "aGk=" Option.none)])
      = .ok [A2APart.textPart "hello",
             A2APart.filePart (.withUri "https://example.com/f" (some "text/plain")),
             A2APart.filePart (.withBytes "aGk=" Option.none)] := by
  have hwf : ∀ p ∈ [A2APart.textPart "hello",
      A2APart.filePart (.withUri "https://example.com/f" (some "text/plain")),
      A2APart.filePart (.withBytes "aGk=" Option.none)], A2APartWf p := by
    intro p hp
    rcases List.mem_cons.mp hp with rfl | hp
    · exact (by decide : ("hello" : String) ≠ "")
    rcases List.mem_cons.mp hp with rfl | hp
    · exact trivial
    rcases List.mem_cons.mp hp with rfl | hp
    · exact trivial
    · cases hp
  exact ⟨hwf, c5_parts_roundtrip _ hwf⟩

/-- C6: a model part with no text, no file reference and no inline data
is silently dropped by `convert_genai_parts_to_a2a` — the conversion of
a list containing it equals the conversion of the list without it, so no
error is raised on it and the relative order of the remaining parts is
unchanged. -/
theorem c6_empty_genai_part_dropped (xs ys : List GenaiPart) (p : GenaiPart)
    (ht : p.text = Option.none) (hf : p.file_data = Option.none)
    (hi : p.inline_data = Option.none) :
    convert_genai_parts_to_a2a (xs ++ p :: ys) = convert_genai_parts_to_a2a (xs ++ ys) := by
  unfold convert_genai_parts_to_a2a
  rw [List.filter_append, List.filter_append,
    List.filter_cons_of_neg (by simp [genaiPartNonEmpty, ht, hf, hi, strTruthy])]

/-- Witness for C6: an all-empty part between a text part and a file part
is dropped. -/
theorem c6_empty_genai_part_dropped_witness :
    (GenaiPart.mk Option.none Option.none Option.none).text = Option.none ∧
    convert_genai_parts_to_a2a
        [⟨some "a", Option.none, Option.none⟩,
         ⟨Option.none, Option.none, Option.none⟩,
         ⟨Option.none, some ⟨"u", Option.none⟩, Option.none⟩]
      = convert_genai_parts_to_a2a
        [⟨some "a", Option.none, Option.none⟩,
         ⟨Option.none, some ⟨"u", Option.none⟩, Option.none⟩] :=
  ⟨rfl, c6_empty_genai_part_dropped [⟨some "a", Option.none, Option.none⟩]
    [⟨Option.none, some ⟨"u", Option.none⟩, Option.none⟩]
    ⟨Option.none, Option.none, Option.none⟩ rfl rfl rfl⟩

/-! ### C7: the first final response terminates event consumption -/

theorem convert_genai_part_ok (p : GenaiPart) (h : genaiPartNonEmpty p = true) :
    ∃ q, convert_genai_part_to_a2a p = .ok q := by
  cases hpt : p.text with
  | some t =>
    by_cases ht : t = ""
    · subst ht
      simp only [genaiPartNonEmpty, strTruthy, hpt] at h
      cases hpf : p.file_data with
      | some fd =>
        exact ⟨.filePart (.withUri fd.file_uri fd.mime_type), by
          simp [convert_genai_part_to_a2a, convertNonText, hpt, hpf]⟩
      | none =>
        cases hpi : p.inline_data with
        | some b =>
          exact ⟨.filePart (.withBytes b.blob_data b.mime_type), by
            simp [convert_genai_part_to_a2a, convertNonText, hpt, hpf, hpi]⟩
        | none => simp [hpf, hpi] at h
    · exact ⟨.textPart t, by simp [convert_genai_part_to_a2a, hpt, ht]⟩
  | none =>
    simp only [genaiPartNonEmpty, strTruthy, hpt, Bool.false_or] at h
    cases hpf : p.file_data with
    | some fd =>
      exact ⟨.filePart (.withUri fd.file_uri fd.mime_type), by
        simp [convert_genai_part_to_a2a, convertNonText, hpt, hpf]⟩
    | none =>
      cases hpi : p.inline_data with
      | some b =>
        exact ⟨.filePart (.withBytes b.blob_data b.mime_type), by
          simp [convert_genai_part_to_a2a, convertNonText, hpt, hpf, hpi]⟩
      | none => simp [hpf, hpi] at h

theorem convert_genai_parts_ok (ps : List GenaiPart) :
    ∃ qs, convert_genai_parts_to_a2a ps = .ok qs := by
  unfold convert_genai_parts_to_a2a
  have hmem : ∀ p ∈ ps.filter genaiPartNonEmpty, genaiPartNonEmpty p = true :=
    fun p hp => (List.mem_filter.mp hp).2
  revert hmem
  generalize ps.filter genaiPartNonEmpty = l
  induction l with
  | nil => exact fun _ => ⟨[], rfl⟩
  | cons a l ih =>
    intro hl
    obtain ⟨q, hq⟩ := convert_genai_part_ok a (hl a (List.mem_cons_self a l))
    obtain ⟨qs, hqs⟩ := ih (fun p hp => hl p (List.mem_cons_of_mem a hp))
    exact ⟨q :: qs, by simp [exceptMap, hq, hqs]⟩

theorem process_nonfinal_prefix (pre : List AgentEvent)
    (hpre : ∀ e ∈ pre, e.is_final_response = false) :
    ∃ acts : List A2AAction, ∀ post tail,
      process_request_events post = .ok tail →
      process_request_events (pre ++ post) = .ok (acts ++ tail) := by
  induction pre with
  | nil => exact ⟨[], fun post tail h => by simpa using h⟩
  | cons e pre ih =>
    obtain ⟨acts, hacts⟩ := ih (fun x hx => hpre x (List.mem_cons_of_mem e hx))
    have hef : e.is_final_response = false := hpre e (List.mem_cons_self e pre)
    cases hfc : e.function_calls.isEmpty with
    | true =>
      obtain ⟨parts, hparts⟩ := convert_genai_parts_ok e.parts
      refine ⟨.updateWorking parts :: acts, fun post tail h => ?_⟩
      simp [process_request_events, hef, hfc, hparts, hacts post tail h]
    | false =>
      refine ⟨acts, fun post tail h => ?_⟩
      simp [process_request_events, hef, hfc, hacts post tail h]

/-- C7: in the event-consumption loop, the first final-response event
terminates consumption: its converted parts are published as an
artifact followed by the completion of the task, and the loop's output
is the same whatever events follow the final response — they are never
processed, so no further status update or artifact is emitted. -/
theorem c7_first_final_terminates (pre : List AgentEvent) (fe : AgentEvent)
    (hpre : ∀ e ∈ pre, e.is_final_response = false)
    (hfe : fe.is_final_response = true) :
    ∃ (acts : List A2AAction) (artifact : List A2APart),
      convert_genai_parts_to_a2a fe.parts = .ok artifact ∧
      ∀ post : List AgentEvent,
        process_request_events (pre ++ fe :: post)
          = .ok (acts ++ [.addArtifact artifact, .complete]) := by
  obtain ⟨artifact, hart⟩ := convert_genai_parts_ok fe.parts
  obtain ⟨acts, hacts⟩ := process_nonfinal_prefix pre hpre
  refine ⟨acts, artifact, hart, fun post => ?_⟩
  have hpost : process_request_events (fe :: post) = .ok [.addArtifact artifact, .complete] := by
    simp [process_request_events, hfe, hart]
  exact hacts (fe :: post) _ hpost

/-- A non-final event carrying one text part and no function calls. -/
def evWorking : AgentEvent :=
  { is_final_response := false, function_calls := []
    parts := [⟨some "thinking", Option.none, Option.none⟩] }

/-- A final-response event carrying one text part. -/
def evFinal : AgentEvent :=
  { is_final_response := true, function_calls := []
    parts := [⟨some "answer", Option.none, Option.none⟩] }

/-- Witness for C7 on a concrete run: one working update, then the final
response, then a trailing event that is never processed. -/
theorem c7_first_final_terminates_witness :
    (∀ e ∈ [evWorking], e.is_final_response = false) ∧
    evFinal.is_final_response = true ∧
    (∃ (acts : List A2AAction) (artifact : List A2APart),
      convert_genai_parts_to_a2a evFinal.parts = .ok artifact ∧
      ∀ post : List AgentEvent,
        process_request_events ([evWorking] ++ evFinal :: post)
          = .ok (acts ++ [.addArtifact artifact, .complete])) :=
  ⟨by decide, rfl, c7_first_final_terminates [evWorking] evFinal (by decide) rfl⟩

/-! ### C8: the search query carries the 30-day `pushed:>=` clause -/

/-- C8: for every caller-supplied query string (and sort), the underlying
search `search_repositories` issues is made with the caller's query text
followed by a `pushed:>=` clause whose date is 30 days before the
invocation time, the given sort, and `"desc"` order: the hypothesis pins
the client's answer at exactly that issued call, and the operation's
output is that answer truncated to `limit` results. -/
theorem c8_search_pushed_clause (mk : Auth → Github)
    (envToken accessToken : Option String) (query sort : String) (limit : Int)
    (now : DT) (results : List Repo)
    (hok : (mk (get_github_client accessToken envToken)).searchRepos
        (query ++ " pushed:>=" ++ formatYMD (now - 30 * secondsPerDay)) sort "desc"
        = .ok results)
    (hlim : 0 ≤ limit) :
    search_repositories mk envToken query sort limit now accessToken
      = (results.take limit.toNat).map mkRepoDict ∧
    ((search_repositories mk envToken query sort limit now accessToken).length : Int)
      ≤ limit := by
  have h1 : search_repositories mk envToken query sort limit now accessToken
      = (pySliceTo limit results).map mkRepoDict := by
    simp only [search_repositories, hok]
  have h2 : pySliceTo limit results = results.take limit.toNat := by
    simp [pySliceTo, hlim]
  refine ⟨by rw [h1, h2], ?_⟩
  rw [h1, h2]
  simp only [List.length_map, List.length_take]
  omega

/-- A client whose search succeeds only on the exact query string, sort
and order the code is expected to issue for `search_repositories("foo")`
invoked on 2025-10-12 (so 30 days earlier is 2025-09-12). -/
def mkSearchProbe : Auth → Github := fun _ =>
  { getRepos := fun _ _ _ => .error "n/a"
    getCommits := fun _ _ => .error "n/a"
    searchRepos := fun q s o =>
      if (q == "foo pushed:>=2025-09-12") && (s == "updated") && (o == "desc")
      then .ok [repoA] else .error "unexpected query" }

/-- Witness for C8: the probe client only answers the query
`"foo pushed:>=2025-09-12"`, and the operation run at 2025-10-12 gets
that answer — so the issued query was exactly the caller text plus the
30-days-ago `pushed:>=` clause. -/
theorem c8_search_pushed_clause_witness :
    (mkSearchProbe (get_github_client Option.none Option.none)).searchRepos
        ("foo" ++ " pushed:>=" ++ formatYMD (20373 * secondsPerDay - 30 * secondsPerDay))
        "updated" "desc" = .ok [repoA] ∧
    (0 : Int) ≤ 10 ∧
    search_repositories mkSearchProbe Option.none "foo" "updated" 10
        (20373 * secondsPerDay) Option.none
      = ([repoA].take (10 : Int).toNat).map mkRepoDict :=
  ⟨by decide, by decide,
    (c8_search_pushed_clause mkSearchProbe Option.none Option.none "foo" "updated" 10
      (20373 * secondsPerDay) [repoA] (by decide) (by decide)).1⟩

/-! ### C9: commit records carry the 8-char sha and first message line -/

/-- C9: every commit record a successful `get_recent_commits` call
returns is built from one of the commits the client listed, with its
`sha` field the first 8 characters of that commit's sha and its
`message` field exactly the first line of that commit's full message. -/
theorem c9_commit_sha_message (mk : Auth → Github)
    (envToken accessToken : Option String) (repoName : String)
    (days limit : Int) (now : DT) (cs : List Commit)
    (hok : (mk (get_github_client accessToken envToken)).getCommits
        repoName (now - days * secondsPerDay) = .ok cs) :
    ∀ d ∈ get_recent_commits mk envToken repoName days limit now accessToken,
      ∃ c ∈ cs, d = mkCommitDict c ∧
        dictLookup "sha" d = some (Val.str (c.sha.take 8)) ∧
        dictLookup "message" d = some (Val.str (firstLine c.message)) := by
  obtain ⟨sel, hsub, heq⟩ := commitsLoop_spec limit cs []
  intro d hd
  simp only [get_recent_commits, hok, heq, List.nil_append] at hd
  obtain ⟨c, hc, rfl⟩ := List.mem_map.mp hd
  exact ⟨c, hsub.subset hc, rfl, rfl, rfl⟩

/-- A commit whose sha is longer than 8 characters and whose message has
two lines. -/
def commitA : Commit :=
  { sha := "0123456789abcdef", message := "first line\nsecond line"
    author_name := "alice", author_date := 20373 * secondsPerDay
    html_url := "https://example.com/c" }

/-- A client listing the one sample commit. -/
def mkOneCommit : Auth → Github := fun _ =>
  { getRepos := fun _ _ _ => .error "n/a"
    getCommits := fun _ _ => .ok [commitA]
    searchRepos := fun _ _ _ => .error "n/a" }

/-- Witness for C9 on the sample commit: the returned record's sha is
`"01234567"` and its message is `"first line"`. -/
theorem c9_commit_sha_message_witness :
    (mkOneCommit (get_github_client Option.none Option.none)).getCommits
        "u/alpha" ((20373 : Int) * secondsPerDay - 7 * secondsPerDay) = .ok [commitA] ∧
    (∀ d ∈ get_recent_commits mkOneCommit Option.none "u/alpha" 7 10
        (20373 * secondsPerDay) Option.none,
      ∃ c ∈ [commitA], d = mkCommitDict c ∧
        dictLookup "sha" d = some (Val.str (c.sha.take 8)) ∧
        dictLookup "message" d = some (Val.str (firstLine c.message))) :=
  ⟨rfl, c9_commit_sha_message mkOneCommit Option.none Option.none "u/alpha" 7 10
    (20373 * secondsPerDay) [commitA] rfl⟩

end A2AGithub
